import Mathlib

/-!
Shallow embedding of the SynergyFlow cross-window coordinator.

Two coordinator variants exist in the source and are both embedded here:

* the browser SharedWorker variant (`src/docs/worker.js`): registry
  `connections : Map port -> {id, port, bounds}` with a monotonic `nextId`
  counter, a 3 ms gravity tick, and `handleParticleExit` routing;
* the native Electron main process (`src/unnamed/part_000`): registry
  `windows : Map id -> {window, bounds}`, the `ipcMain.on('particle-exit')`
  router and the same gravity tick.

JavaScript numbers are modelled as rationals (`ℚ`) wherever the source uses
only field operations and comparisons, and as reals (`ℝ`) in the gravity
solver where `Math.sqrt` appears.  The solver's force components, which in
JavaScript can become `NaN` through `0/0`, are modelled by the `JSVal` type
whose division and multiplication follow IEEE special-value propagation for
the cases the source can reach.
-/

/-- Axis-aligned rectangle `{x, y, width, height}` in absolute screen
coordinates, as carried by heartbeats and stored in the registry. -/
structure Rect where
  x : ℚ
  y : ℚ
  width : ℚ
  height : ℚ
deriving DecidableEq, Repr

/-- One client session of the coordinator: `{id, port, bounds}` in
`worker.js` (the port is an opaque channel handle, modelled as a number),
`{window, bounds}` keyed by `id` in the native variant. -/
structure Session where
  id : ℕ
  channel : ℕ
  bounds : Rect
deriving DecidableEq, Repr

/-- Coordinator registry state of `worker.js`: the insertion-ordered map
`connections` (a JavaScript `Map` iterates in insertion order, so a list is
a faithful model) together with the monotonic id counter `nextId`. -/
structure Registry where
  connections : List Session
  nextId : ℕ
deriving DecidableEq, Repr

/-- Initial coordinator state: `connections = new Map()`, `nextId = 1`. -/
def registryInit : Registry := { connections := [], nextId := 1 }

/-- `self.onconnect` in `worker.js`: assign `id = nextId++` and insert a
session with the initial placeholder bounds `{x:0, y:0, width:800,
height:600}`.  Returns the new state and the assigned id. -/
def register (r : Registry) (channel : ℕ) : Registry × ℕ :=
  let id := r.nextId
  let s : Session :=
    { id := id
      channel := channel
      bounds := { x := 0, y := 0, width := 800, height := 600 } }
  ({ connections := r.connections ++ [s]
     nextId := r.nextId + 1 }, id)

/-- `windows.delete(id)` (native `closed` handler): remove the session with
the given id; deleting an absent key is a no-op. -/
def unregister (r : Registry) (id : ℕ) : Registry :=
  { r with connections := r.connections.filter (fun c => c.id != id) }

/-- The heartbeat handler's registry effect (`worker.js` lines 73-79): look
the sender's session up and replace its stored bounds verbatim; no
validation of the rectangle is performed.  Ids are unique in every
reachable state, so updating every entry carrying the id is faithful. -/
def updateBounds (r : Registry) (id : ℕ) (rect : Rect) : Registry :=
  let upd : Session → Session :=
    fun c => if c.id = id then { c with bounds := rect } else c
  { r with connections := r.connections.map upd }

/-- Registry lookup by id (`windows.get(id)`, and
`Array.from(connections.values()).find(c => c.id === senderId)`). -/
def lookup (r : Registry) (id : ℕ) : Option Session :=
  r.connections.find? (fun c => c.id == id)

/-- The `particle-exit` payload a client sends: local exit point, velocity,
and the cosmetic metadata fields `behavior`, `offset`, `hue` (see
`tryTransfer` in `app.js`). -/
structure ExitPayload where
  x : ℚ
  y : ℚ
  vx : ℚ
  vy : ℚ
  behavior : String
  offset : ℚ
  hue : ℚ
deriving DecidableEq, Repr

/-- A `spawn-particle` message as delivered to a destination client.
`Option` models JavaScript property presence: the worker variant forwards
an object without `behavior`/`offset`/`hue` properties (`none`), the
native variant forwards them (`some _`). -/
structure SpawnMsg where
  destId : ℕ
  x : ℚ
  y : ℚ
  vx : ℚ
  vy : ℚ
  behavior : Option String
  offset : Option ℚ
  hue : Option ℚ
deriving DecidableEq, Repr

/-- Inclusive containment test of the routers:
`absX >= b.x && absX <= b.x + b.width && absY >= b.y && absY <= b.y + b.height`. -/
def containsPt (b : Rect) (px py : ℚ) : Bool :=
  decide (px ≥ b.x) && decide (px ≤ b.x + b.width) &&
  decide (py ≥ b.y) && decide (py ≤ b.y + b.height)

/-- The worker-variant message sent on a hit: only position (translated to
destination-local coordinates) and velocity are forwarded
(`worker.js` lines 109-112); the metadata fields are absent. -/
def mkSpawnW (t : Session) (ax ay : ℚ) (p : ExitPayload) : SpawnMsg :=
  { destId := t.id
    x := ax - t.bounds.x
    y := ay - t.bounds.y
    vx := p.vx
    vy := p.vy
    behavior := none
    offset := none
    hue := none }

/-- The native-variant message sent on a hit: translated position,
velocity, and the metadata forwarded unchanged (`part_000` line 106). -/
def mkSpawnN (t : Session) (ax ay : ℚ) (p : ExitPayload) : SpawnMsg :=
  { destId := t.id
    x := ax - t.bounds.x
    y := ay - t.bounds.y
    vx := p.vx
    vy := p.vy
    behavior := some p.behavior
    offset := some p.offset
    hue := some p.hue }

/-- The target loop of `handleParticleExit` (`worker.js` lines 99-115):
skip the sender, send to the first containing rectangle and `return`. -/
def targetLoopW (sid : ℕ) (ax ay : ℚ) (p : ExitPayload) :
    List Session → List SpawnMsg
  | [] => []
  | t :: rest =>
    if t.id = sid then targetLoopW sid ax ay p rest
    else if containsPt t.bounds ax ay then [mkSpawnW t ax ay p]
    else targetLoopW sid ax ay p rest

/-- The target loop of the native `particle-exit` handler
(`part_000` lines 95-109), identical control flow with the full payload. -/
def targetLoopN (sid : ℕ) (ax ay : ℚ) (p : ExitPayload) :
    List Session → List SpawnMsg
  | [] => []
  | t :: rest =>
    if t.id = sid then targetLoopN sid ax ay p rest
    else if containsPt t.bounds ax ay then [mkSpawnN t ax ay p]
    else targetLoopN sid ax ay p rest

/-- `handleParticleExit(senderId, {x, y, vx, vy})` of `worker.js`: look
the sender up (drop if absent), compute the absolute exit point, and run
the target loop.  The result is the list of messages the call sends. -/
def handleParticleExit (conns : List Session) (sid : ℕ) (p : ExitPayload) :
    List SpawnMsg :=
  match conns.find? (fun c => c.id == sid) with
  | none => []
  | some sender =>
    targetLoopW sid (sender.bounds.x + p.x) (sender.bounds.y + p.y) p conns

/-- `ipcMain.on('particle-exit')` of `part_000`: the same routing with the
metadata fields forwarded. -/
def particleExitNative (wins : List Session) (sid : ℕ) (p : ExitPayload) :
    List SpawnMsg :=
  match wins.find? (fun c => c.id == sid) with
  | none => []
  | some sender =>
    targetLoopN sid (sender.bounds.x + p.x) (sender.bounds.y + p.y) p wins

/-- A client-to-coordinator message (`port.onmessage` discriminates on
`data.type`). -/
inductive ClientMsg where
  | heartbeat (bounds : Rect)
  | particleExit (payload : ExitPayload)
  | log
deriving DecidableEq

/-- `port.onmessage` of `worker.js` for the client with the given id:
returns the new registry state and the messages sent to clients. -/
def onmessage (r : Registry) (sid : ℕ) (m : ClientMsg) :
    Registry × List SpawnMsg :=
  match m with
  | .heartbeat b => (updateBounds r sid b, [])
  | .particleExit p => (r, handleParticleExit r.connections sid p)
  | .log => (r, [])

/-- A JavaScript number as produced by the solver's force computation:
either an ordinary (finite) number, `NaN`, or a signed infinity.  Only the
special-value cases the solver can actually produce are needed, but
division and multiplication below follow the full IEEE rules for finite
operands. -/
inductive JSVal where
  | nan : JSVal
  | inf : JSVal
  | ninf : JSVal
  | num : ℝ → JSVal

/-- JavaScript division of two finite numbers: `0/0 = NaN`,
`a/0 = ±Infinity` for `a ≠ 0`, ordinary division otherwise. -/
noncomputable def jdiv (a b : ℝ) : JSVal :=
  if b = 0 then
    if a = 0 then JSVal.nan else if 0 < a then JSVal.inf else JSVal.ninf
  else JSVal.num (a / b)

/-- JavaScript multiplication of a possibly-special value by a finite
number: `NaN` propagates; `±Infinity * 0 = NaN`, otherwise the sign rules
apply. -/
noncomputable def jmul (v : JSVal) (m : ℝ) : JSVal :=
  match v with
  | JSVal.nan => JSVal.nan
  | JSVal.inf => if m = 0 then JSVal.nan else if 0 < m then JSVal.inf else JSVal.ninf
  | JSVal.ninf => if m = 0 then JSVal.nan else if 0 < m then JSVal.ninf else JSVal.inf
  | JSVal.num a => JSVal.num (a * m)

/-- JavaScript addition on possibly-special values: `NaN` propagates,
`Infinity + (-Infinity) = NaN`, infinities absorb finite values. -/
noncomputable def jadd (u v : JSVal) : JSVal :=
  match u, v with
  | JSVal.nan, _ => JSVal.nan
  | _, JSVal.nan => JSVal.nan
  | JSVal.inf, JSVal.ninf => JSVal.nan
  | JSVal.ninf, JSVal.inf => JSVal.nan
  | JSVal.inf, _ => JSVal.inf
  | _, JSVal.inf => JSVal.inf
  | JSVal.ninf, _ => JSVal.ninf
  | _, JSVal.ninf => JSVal.ninf
  | JSVal.num a, JSVal.num b => JSVal.num (a + b)

/-- `bounds.x + bounds.width / 2`: a session's rectangle center,
x-coordinate (solver tick, both variants). -/
noncomputable def centerX (s : Session) : ℝ :=
  (s.bounds.x : ℝ) + (s.bounds.width : ℝ) / 2

/-- `bounds.y + bounds.height / 2`: center y-coordinate. -/
noncomputable def centerY (s : Session) : ℝ :=
  (s.bounds.y : ℝ) + (s.bounds.height : ℝ) / 2

/-- Everything the inner per-pair loop body computes for one
(source, target) pair: displacement, distance, and force components. -/
structure PairOut where
  dx : ℝ
  dy : ℝ
  dist : ℝ
  fx : JSVal
  fy : JSVal

/-- The per-pair body of the solver tick (`worker.js` lines 23-48,
`part_000` lines 129-154): displacement of target center from source
center, `distSq`, `dist = sqrt(distSq)`, the clamped
`safeDistSq = max(distSq, 10000)`, `forceMagnitude = 500000 / safeDistSq`,
and the components `fx = (dx/dist) * forceMagnitude`,
`fy = (dy/dist) * forceMagnitude`. -/
noncomputable def pairCompute (source target : Session) : PairOut :=
  let dx := centerX target - centerX source
  let dy := centerY target - centerY source
  let distSq := dx * dx + dy * dy
  let dist := Real.sqrt distSq
  let safeDistSq := max distSq 10000
  let forceMagnitude := 500000 / safeDistSq
  { dx := dx
    dy := dy
    dist := dist
    fx := jmul (jdiv dx dist) forceMagnitude
    fy := jmul (jdiv dy dist) forceMagnitude }

/-- A neighbor vector pushed with `update-state`:
`{id: target.id, dx, dy, dist}`. -/
structure Neighbor where
  id : ℕ
  dx : ℝ
  dy : ℝ
  dist : ℝ

/-- One `update-state` push: destination client, accumulated gravity
vector, and the neighbor list. -/
structure UpdateState where
  destId : ℕ
  gravityX : JSVal
  gravityY : JSVal
  neighbors : List Neighbor

/-- The inner `forEach` step of the tick for a fixed source: skip the
source itself (`if (source.id === target.id) return`), otherwise add the
pair's force into the accumulator and append the neighbor record. -/
noncomputable def tickStep (source : Session)
    (acc : JSVal × JSVal × List Neighbor) (target : Session) :
    JSVal × JSVal × List Neighbor :=
  if source.id = target.id then acc
  else
    let p := pairCompute source target
    (jadd acc.1 p.fx, jadd acc.2.1 p.fy,
      acc.2.2 ++ [{ id := target.id, dx := p.dx, dy := p.dy, dist := p.dist }])

/-- One solver tick over a registry snapshot (the 3 ms `setInterval` body):
for every source client, accumulate forces and neighbors over all other
clients, starting from `totalForceX = totalForceY = 0` and an empty
neighbor array, and push one `update-state` message per source. -/
noncomputable def tick (clients : List Session) : List UpdateState :=
  clients.map (fun source =>
    let r := clients.foldl (tickStep source) (JSVal.num 0, JSVal.num 0, [])
    { destId := source.id
      gravityX := r.1
      gravityY := r.2.1
      neighbors := r.2.2 })

/-- Displacement (x) of B's center from A's center, as the tick computes
it for source A and target B. -/
noncomputable def cdx (A B : Session) : ℝ := centerX B - centerX A

/-- Displacement (y) of B's center from A's center. -/
noncomputable def cdy (A B : Session) : ℝ := centerY B - centerY A

/-- Euclidean center-to-center distance as the tick computes it:
`Math.sqrt(dx*dx + dy*dy)`. -/
noncomputable def cdist (A B : Session) : ℝ :=
  Real.sqrt (cdx A B * cdx A B + cdy A B * cdy A B)

/-- A registry-mutating event as seen by the coordinator: a connect
(`self.onconnect`), a disconnect (`closed` handler), or a heartbeat. -/
inductive RegOp where
  | register (channel : ℕ)
  | unregister (id : ℕ)
  | heartbeat (id : ℕ) (rect : Rect)
deriving DecidableEq

/-- The registry effect of one event. -/
def applyOp (r : Registry) : RegOp → Registry
  | .register ch => (register r ch).1
  | .unregister i => unregister r i
  | .heartbeat i rect => updateBounds r i rect

/-- The registry reached from a state by a sequence of events. -/
def runOps (r : Registry) : List RegOp → Registry
  | [] => r
  | op :: rest => runOps (applyOp r op) rest

/-- The ids handed out by the `register` events of a trace, in order. -/
def assignedIds (r : Registry) : List RegOp → List ℕ
  | [] => []
  | op :: rest =>
    match op with
    | .register _ => r.nextId :: assignedIds (applyOp r op) rest
    | _ => assignedIds (applyOp r op) rest

/-- Every live session's id is below the counter. -/
def IdsBounded (r : Registry) : Prop :=
  ∀ c ∈ r.connections, c.id < r.nextId

/-- No two live sessions share an id. -/
def NodupIds (r : Registry) : Prop :=
  (r.connections.map Session.id).Nodup

/-- Window A of the spec's end-to-end scenario: bounds
`{x:0, y:0, width:800, height:600}`. -/
def wSessA : Session :=
  { id := 1
    channel := 100
    bounds := { x := 0, y := 0, width := 800, height := 600 } }

/-- Window B of the scenario, adjacent to A and touching it at `x = 800`. -/
def wSessB : Session :=
  { id := 2
    channel := 101
    bounds := { x := 800, y := 0, width := 800, height := 600 } }

/-- A particle exiting A at local `(800, 300)` with velocity `(5, 0)`. -/
def wPayload : ExitPayload :=
  { x := 800, y := 300, vx := 5, vy := 0, behavior := "flow", offset := 3,
    hue := 200 }

/-- A registry holding only window B. -/
def regB : Registry := { connections := [wSessB], nextId := 3 }

/-- A registry holding windows A and B. -/
def regAB : Registry := { connections := [wSessA, wSessB], nextId := 3 }

/-- A degenerate heartbeat rectangle (negative width, zero height). -/
def badRect : Rect := { x := 5, y := 6, width := -7, height := 0 }

/-- An exit payload carrying all three metadata fields. -/
def c4Payload : ExitPayload :=
  { x := 800, y := 300, vx := 5, vy := 2, behavior := "flow", offset := 7,
    hue := 120 }

/-- The message the native router delivers for `c4Payload` sent from A in
`regAB`. -/
def c4Msg : SpawnMsg :=
  SpawnMsg.mk 2 0 300 5 2 (some "flow") (some 7) (some 120)

/-- Two sessions with identical rectangles, hence exactly coincident
centers. -/
def coincA : Session :=
  { id := 1
    channel := 10
    bounds := { x := 0, y := 0, width := 100, height := 100 } }

/-- The second coincident session. -/
def coincB : Session :=
  { id := 2
    channel := 11
    bounds := { x := 0, y := 0, width := 100, height := 100 } }

/-- Window A of the spec's tick scenario: center `(400, 300)`. -/
def gA : Session :=
  { id := 1
    channel := 0
    bounds := { x := 0, y := 0, width := 800, height := 600 } }

/-- Window B of the tick scenario: center `(1600, 300)`, 1200 units from
A's center. -/
def gB : Session :=
  { id := 2
    channel := 0
    bounds := { x := 1200, y := 0, width := 800, height := 600 } }

/-- The containment test is the inclusive four-inequality condition. -/
lemma containsPt_iff (b : Rect) (px py : ℚ) :
    containsPt b px py = true ↔
      (b.x ≤ px ∧ px ≤ b.x + b.width ∧ b.y ≤ py ∧ py ≤ b.y + b.height) := by
  simp [containsPt, ge_iff_le, and_assoc]

/-- The worker target loop delivers exactly one message, built from the
first non-sender session whose rectangle contains the point, and nothing
when no such session exists. -/
lemma targetLoopW_eq (sid : ℕ) (ax ay : ℚ) (p : ExitPayload)
    (l : List Session) :
    targetLoopW sid ax ay p l =
      match l.find? (fun t => (t.id != sid) && containsPt t.bounds ax ay) with
      | none => []
      | some t => [mkSpawnW t ax ay p] := by
  induction l with
  | nil => rfl
  | cons t rest ih =>
    by_cases h1 : t.id = sid
    · simp [targetLoopW, h1, List.find?, bne_self_eq_false, ih]
    · have h1b : (t.id != sid) = true := by simpa [bne_iff_ne] using h1
      by_cases h2 : containsPt t.bounds ax ay
      · simp [targetLoopW, h1, List.find?, h2, h1b]
      · simp [targetLoopW, h1, List.find?, h2, h1b, ih]

/-- The native target loop: same first-match characterization with the
full payload. -/
lemma targetLoopN_eq (sid : ℕ) (ax ay : ℚ) (p : ExitPayload)
    (l : List Session) :
    targetLoopN sid ax ay p l =
      match l.find? (fun t => (t.id != sid) && containsPt t.bounds ax ay) with
      | none => []
      | some t => [mkSpawnN t ax ay p] := by
  induction l with
  | nil => rfl
  | cons t rest ih =>
    by_cases h1 : t.id = sid
    · simp [targetLoopN, h1, List.find?, bne_self_eq_false, ih]
    · have h1b : (t.id != sid) = true := by simpa [bne_iff_ne] using h1
      by_cases h2 : containsPt t.bounds ax ay
      · simp [targetLoopN, h1, List.find?, h2, h1b]
      · simp [targetLoopN, h1, List.find?, h2, h1b, ih]

/-- Looking up the updated id after a bounds update returns the same
session with the new rectangle. -/
lemma find?_update_self (l : List Session) (i : ℕ) (rect : Rect) :
    (l.map (fun c => if c.id = i then { c with bounds := rect } else c)).find?
        (fun c => c.id == i) =
      (l.find? (fun c => c.id == i)).map (fun s => { s with bounds := rect }) := by
  induction l with
  | nil => rfl
  | cons c rest ih =>
    by_cases h : c.id = i
    · simp [List.find?, h]
    · have hb : (c.id == i) = false := by simpa using h
      simp [List.find?, h, hb, ih]

/-- Looking up any other id is unaffected by a bounds update. -/
lemma find?_update_other (l : List Session) (i j : ℕ) (rect : Rect)
    (hij : j ≠ i) :
    (l.map (fun c => if c.id = i then { c with bounds := rect } else c)).find?
        (fun c => c.id == j) =
      l.find? (fun c => c.id == j) := by
  induction l with
  | nil => rfl
  | cons c rest ih =>
    by_cases h : c.id = i
    · have hcj : (i == j) = false := by simpa using Ne.symm hij
      simp [List.find?, h, hcj, ih]
    · simp [List.find?, h, ih]

/-- Every event preserves the id bound. -/
lemma idsBounded_applyOp {r : Registry} (h : IdsBounded r) (op : RegOp) :
    IdsBounded (applyOp r op) := by
  cases op with
  | register ch =>
    intro c hc
    simp [applyOp, register] at hc ⊢
    rcases hc with hc | hc
    · exact Nat.lt_succ_of_lt (h c hc)
    · subst hc
      simp
  | unregister i =>
    intro c hc
    simp [applyOp, unregister, List.mem_filter] at hc
    exact h c hc.1
  | heartbeat i rect =>
    intro c hc
    simp [applyOp, updateBounds] at hc ⊢
    rcases hc with ⟨c', hc', hco⟩
    have hid : c.id = c'.id := by
      by_cases hci : c'.id = i
      · simp [hci] at hco
        rw [← hco]
        simpa using hci.symm
      · simp [hci] at hco
        rw [← hco]
    rw [hid]
    exact h c' hc'

/-- The id counter never decreases. -/
lemma nextId_applyOp (r : Registry) (op : RegOp) :
    r.nextId ≤ (applyOp r op).nextId := by
  cases op <;> simp [applyOp, register, unregister, updateBounds]

/-- The id counter never decreases along a trace. -/
lemma nextId_runOps (r : Registry) (ops : List RegOp) :
    r.nextId ≤ (runOps r ops).nextId := by
  induction ops generalizing r with
  | nil => exact le_refl _
  | cons op rest ih =>
    exact le_trans (nextId_applyOp r op) (ih (applyOp r op))

/-- Every id a trace ever assigns is below the final counter. -/
lemma assignedIds_lt (ops : List RegOp) (r : Registry) :
    ∀ a ∈ assignedIds r ops, a < (runOps r ops).nextId := by
  induction ops generalizing r with
  | nil => intro a ha; simp [assignedIds] at ha
  | cons op rest ih =>
    intro a ha
    cases op with
    | register ch =>
      simp [assignedIds] at ha
      rcases ha with ha | ha
      · rw [ha]
        have h1 : r.nextId < (applyOp r (RegOp.register ch)).nextId := by
          simp [applyOp, register]
        exact lt_of_lt_of_le h1 (nextId_runOps _ rest)
      · exact ih (applyOp r (RegOp.register ch)) a ha
    | unregister i =>
      simp [assignedIds] at ha
      exact ih (applyOp r (RegOp.unregister i)) a ha
    | heartbeat i rect =>
      simp [assignedIds] at ha
      exact ih (applyOp r (RegOp.heartbeat i rect)) a ha

/-- Every event preserves distinctness of live ids, given the id bound. -/
lemma nodupIds_applyOp {r : Registry} (hb : IdsBounded r) (hn : NodupIds r)
    (op : RegOp) : NodupIds (applyOp r op) := by
  cases op with
  | register ch =>
    have hfresh : r.nextId ∉ r.connections.map Session.id := by
      intro hmem
      rcases List.mem_map.mp hmem with ⟨c, hc, hcid⟩
      exact absurd hcid (Nat.ne_of_lt (hb c hc))
    have hdisj : (r.connections.map Session.id).Disjoint [r.nextId] := by
      intro x hx hx'
      simp at hx'
      subst hx'
      exact hfresh hx
    have : (r.connections.map Session.id ++ [r.nextId]).Nodup :=
      List.Nodup.append hn (List.nodup_singleton _) hdisj
    simpa [NodupIds, applyOp, register] using this
  | unregister i =>
    have hsub : ((unregister r i).connections.map Session.id).Sublist
        (r.connections.map Session.id) :=
      (List.filter_sublist r.connections).map Session.id
    exact hsub.nodup hn
  | heartbeat i rect =>
    have hmap : (updateBounds r i rect).connections.map Session.id =
        r.connections.map Session.id := by
      simp [updateBounds, List.map_map]
      intro c hc
      by_cases hci : c.id = i <;> simp [hci]
    simpa [NodupIds, applyOp, hmap] using hn

/-- Both invariants hold in every state reachable from a state satisfying
them. -/
lemma invariants_runOps (ops : List RegOp) (r : Registry)
    (hb : IdsBounded r) (hn : NodupIds r) :
    IdsBounded (runOps r ops) ∧ NodupIds (runOps r ops) := by
  induction ops generalizing r with
  | nil => exact ⟨hb, hn⟩
  | cons op rest ih =>
    exact ih (applyOp r op) (idsBounded_applyOp hb op) (nodupIds_applyOp hb hn op)

/-- C1: for a transfer request whose sender is present in the registry,
both routers compute the absolute point `P = (senderRect.x + localX,
senderRect.y + localY)` and deliver exactly to the first client in
registry iteration order, other than the sender, whose rectangle contains
`P` under inclusive bounds, with destination-local coordinates
`(absX - destRect.x, absY - destRect.y)`; if no such client exists,
nothing is delivered to any client. -/
theorem route_delivers_first_containing
    (conns : List Session) (sid : ℕ) (p : ExitPayload) (sender : Session)
    (hs : conns.find? (fun c => c.id == sid) = some sender) :
    (∀ b px py, containsPt b px py = true ↔
      (b.x ≤ px ∧ px ≤ b.x + b.width ∧ b.y ≤ py ∧ py ≤ b.y + b.height)) ∧
    (conns.find? (fun t => (t.id != sid) &&
        containsPt t.bounds (sender.bounds.x + p.x) (sender.bounds.y + p.y))
          = none →
      handleParticleExit conns sid p = [] ∧
      particleExitNative conns sid p = []) ∧
    (∀ t, conns.find? (fun t => (t.id != sid) &&
        containsPt t.bounds (sender.bounds.x + p.x) (sender.bounds.y + p.y))
          = some t →
      handleParticleExit conns sid p =
        [SpawnMsg.mk t.id (sender.bounds.x + p.x - t.bounds.x)
          (sender.bounds.y + p.y - t.bounds.y) p.vx p.vy none none none] ∧
      particleExitNative conns sid p =
        [SpawnMsg.mk t.id (sender.bounds.x + p.x - t.bounds.x)
          (sender.bounds.y + p.y - t.bounds.y) p.vx p.vy
          (some p.behavior) (some p.offset) (some p.hue)]) := by
  have hW : handleParticleExit conns sid p =
      targetLoopW sid (sender.bounds.x + p.x) (sender.bounds.y + p.y) p conns := by
    unfold handleParticleExit
    rw [hs]
  have hN : particleExitNative conns sid p =
      targetLoopN sid (sender.bounds.x + p.x) (sender.bounds.y + p.y) p conns := by
    unfold particleExitNative
    rw [hs]
  refine ⟨containsPt_iff, ?_, ?_⟩
  · intro hnone
    constructor
    · rw [hW, targetLoopW_eq, hnone]
    · rw [hN, targetLoopN_eq, hnone]
  · intro t ht
    constructor
    · rw [hW, targetLoopW_eq, ht]
      rfl
    · rw [hN, targetLoopN_eq, ht]
      rfl

/-- C1 witness: the spec's end-to-end scenario: sender A at
`{0,0,800,600}`, B at `{800,0,800,600}`, exit at local `(800,300)`; found
on the inclusive boundary of B, delivered with local coordinates
`(0,300)` and unchanged velocity `(5,0)`. -/
theorem route_delivers_first_containing_witness :
    handleParticleExit [wSessA, wSessB] 1 wPayload =
      [SpawnMsg.mk 2 0 300 5 0 none none none] ∧
    particleExitNative [wSessA, wSessB] 1 wPayload =
      [SpawnMsg.mk 2 0 300 5 0 (some "flow") (some 3) (some 200)] := by
  have hs : List.find? (fun c => c.id == 1) [wSessA, wSessB] = some wSessA := by
    simp [List.find?, wSessA]
  have hfind : List.find? (fun t => (t.id != 1) && containsPt t.bounds
      (wSessA.bounds.x + wPayload.x) (wSessA.bounds.y + wPayload.y))
        [wSessA, wSessB] = some wSessB := by
    norm_num [List.find?, containsPt, wSessA, wSessB, wPayload]
    rfl
  have h := (route_delivers_first_containing [wSessA, wSessB] 1 wPayload
    wSessA hs).2.2 wSessB hfind
  refine ⟨h.1.trans ?_, h.2.trans ?_⟩ <;>
    norm_num [wSessA, wSessB, wPayload]

/-- C9: each transfer request causes at most one spawn message, and the
destination is never the sender itself, in both coordinator variants. -/
theorem route_at_most_one_delivery_not_sender
    (conns : List Session) (sid : ℕ) (p : ExitPayload) :
    ((handleParticleExit conns sid p).length ≤ 1 ∧
      ∀ m ∈ handleParticleExit conns sid p, m.destId ≠ sid) ∧
    ((particleExitNative conns sid p).length ≤ 1 ∧
      ∀ m ∈ particleExitNative conns sid p, m.destId ≠ sid) := by
  constructor
  · unfold handleParticleExit
    cases hF : conns.find? (fun c => c.id == sid) with
    | none => simp
    | some sender =>
      dsimp only
      rw [targetLoopW_eq]
      cases hT : conns.find? (fun t => (t.id != sid) && containsPt t.bounds
          (sender.bounds.x + p.x) (sender.bounds.y + p.y)) with
      | none => simp
      | some t =>
        have hp := List.find?_some hT
        have htid : t.id ≠ sid := by
          simp [bne_iff_ne] at hp
          exact hp.1
        simp [mkSpawnW, htid]
  · unfold particleExitNative
    cases hF : conns.find? (fun c => c.id == sid) with
    | none => simp
    | some sender =>
      dsimp only
      rw [targetLoopN_eq]
      cases hT : conns.find? (fun t => (t.id != sid) && containsPt t.bounds
          (sender.bounds.x + p.x) (sender.bounds.y + p.y)) with
      | none => simp
      | some t =>
        have hp := List.find?_some hT
        have htid : t.id ≠ sid := by
          simp [bne_iff_ne] at hp
          exact hp.1
        simp [mkSpawnN, htid]

/-- C9 witness: the scenario transfer delivers exactly one message. -/
theorem route_at_most_one_delivery_not_sender_witness :
    (handleParticleExit [wSessA, wSessB] 1 wPayload).length ≤ 1 ∧
    (particleExitNative [wSessA, wSessB] 1 wPayload).length ≤ 1 :=
  ⟨(route_at_most_one_delivery_not_sender [wSessA, wSessB] 1 wPayload).1.1,
   (route_at_most_one_delivery_not_sender [wSessA, wSessB] 1 wPayload).2.1⟩

/-- C5: a transfer request whose sender is not in the registry is dropped:
no message is sent to any client, no error is raised, and the registry
state is unchanged (in both variants the handler returns before touching
anything). -/
theorem route_unknown_sender_drops (reg : Registry) (sid : ℕ)
    (p : ExitPayload) (h : ∀ c ∈ reg.connections, c.id ≠ sid) :
    onmessage reg sid (ClientMsg.particleExit p) = (reg, []) ∧
    particleExitNative reg.connections sid p = [] := by
  have hF : reg.connections.find? (fun c => c.id == sid) = none := by
    rw [List.find?_eq_none]
    intro c hc
    simp [h c hc]
  constructor
  · simp [onmessage, handleParticleExit, hF]
  · simp [particleExitNative, hF]

/-- C5 witness: sender id 1 is absent from a registry holding only B. -/
theorem route_unknown_sender_drops_witness :
    onmessage regB 1 (ClientMsg.particleExit wPayload) = (regB, []) ∧
    particleExitNative regB.connections 1 wPayload = [] :=
  route_unknown_sender_drops regB 1 wPayload (by decide)

/-- C4 counterexample: a delivered transfer in the SharedWorker variant
whose sender supplied `behavior = "flow"`, `offset = 7`, `hue = 120`, yet
the delivered message carries none of the metadata fields: the worker
coordinator destructures only `{x, y, vx, vy}` and drops the metadata,
falsifying the claim that delivered metadata always arrives unchanged. -/
theorem worker_route_drops_metadata_cex :
    handleParticleExit [wSessA, wSessB] 1 c4Payload =
      [SpawnMsg.mk 2 0 300 5 2 none none none] ∧
    c4Payload.behavior = "flow" ∧ c4Payload.offset = 7 ∧
    c4Payload.hue = 120 := by
  refine ⟨?_, rfl, rfl, rfl⟩
  norm_num [handleParticleExit, targetLoopW, mkSpawnW, List.find?,
    containsPt, wSessA, wSessB, c4Payload]

/-- C4 (amended): every delivered transfer carries the sender's velocity
unchanged in both variants; the native coordinator also forwards the
metadata (behavior tag, phase offset, color hue) unchanged and
uninterpreted, but the SharedWorker coordinator forwards only position and
velocity and drops the metadata fields. -/
theorem route_payload_forwarding (conns : List Session) (sid : ℕ)
    (p : ExitPayload) :
    (∀ m ∈ handleParticleExit conns sid p,
        m.vx = p.vx ∧ m.vy = p.vy ∧
        m.behavior = none ∧ m.offset = none ∧ m.hue = none) ∧
    (∀ m ∈ particleExitNative conns sid p,
        m.vx = p.vx ∧ m.vy = p.vy ∧
        m.behavior = some p.behavior ∧ m.offset = some p.offset ∧
        m.hue = some p.hue) := by
  constructor
  · unfold handleParticleExit
    cases hF : conns.find? (fun c => c.id == sid) with
    | none => simp
    | some sender =>
      dsimp only
      rw [targetLoopW_eq]
      cases hT : conns.find? (fun t => (t.id != sid) && containsPt t.bounds
          (sender.bounds.x + p.x) (sender.bounds.y + p.y)) with
      | none => simp
      | some t => simp [mkSpawnW]
  · unfold particleExitNative
    cases hF : conns.find? (fun c => c.id == sid) with
    | none => simp
    | some sender =>
      dsimp only
      rw [targetLoopN_eq]
      cases hT : conns.find? (fun t => (t.id != sid) && containsPt t.bounds
          (sender.bounds.x + p.x) (sender.bounds.y + p.y)) with
      | none => simp
      | some t => simp [mkSpawnN]

/-- C4 witness: the native delivery of `c4Payload` carries velocity and
all three metadata fields unchanged. -/
theorem route_payload_forwarding_witness :
    c4Msg.vx = c4Payload.vx ∧ c4Msg.vy = c4Payload.vy ∧
    c4Msg.behavior = some c4Payload.behavior ∧
    c4Msg.offset = some c4Payload.offset ∧
    c4Msg.hue = some c4Payload.hue := by
  have hmem : c4Msg ∈ particleExitNative [wSessA, wSessB] 1 c4Payload := by
    norm_num [particleExitNative, targetLoopN, mkSpawnN, List.find?,
      containsPt, wSessA, wSessB, c4Payload, c4Msg]
  exact (route_payload_forwarding [wSessA, wSessB] 1 c4Payload).2 c4Msg hmem

/-- C7: unregistering removes the session with that id, and a second
unregister for the same id is a no-op: it leaves the registry exactly as
the first call left it, with no error. -/
theorem unregister_idempotent (reg : Registry) (i : ℕ) :
    (∀ c ∈ (unregister reg i).connections, c.id ≠ i) ∧
    unregister (unregister reg i) i = unregister reg i := by
  constructor
  · intro c hc
    have hm := (List.mem_filter.mp hc).2
    simpa [bne_iff_ne] using hm
  · unfold unregister
    simp [List.filter_filter]

/-- C7 witness: removing id 1 twice from the two-window registry equals
removing it once. -/
theorem unregister_idempotent_witness :
    unregister (unregister regAB 1) 1 = unregister regAB 1 :=
  (unregister_idempotent regAB 1).2

/-- C8: a heartbeat from registered client `i` carrying rectangle `rect`
replaces exactly that session's stored bounds with `rect` verbatim (any
rectangle is accepted, no validation), keeps its id and channel, leaves
every other id's lookup and the id counter unchanged, and sends no
message. -/
theorem heartbeat_updates_bounds_verbatim (reg : Registry) (i j : ℕ)
    (rect : Rect) (s : Session) (hs : lookup reg i = some s) :
    (onmessage reg i (ClientMsg.heartbeat rect)).1 = updateBounds reg i rect ∧
    lookup (updateBounds reg i rect) i = some { s with bounds := rect } ∧
    (j ≠ i → lookup (updateBounds reg i rect) j = lookup reg j) ∧
    (updateBounds reg i rect).nextId = reg.nextId ∧
    (onmessage reg i (ClientMsg.heartbeat rect)).2 = [] := by
  refine ⟨rfl, ?_, ?_, rfl, rfl⟩
  · have h := find?_update_self reg.connections i rect
    simp only [lookup, updateBounds] at hs ⊢
    rw [h, hs]
    rfl
  · intro hj
    have h := find?_update_other reg.connections i j rect hj
    simp only [lookup, updateBounds]
    rw [h]

/-- C8 witness: a heartbeat from client 1 carrying a degenerate rectangle
(negative width, zero height) is stored verbatim and client 2's session is
untouched. -/
theorem heartbeat_updates_bounds_verbatim_witness :
    lookup (updateBounds regAB 1 badRect) 1 =
      some { wSessA with bounds := badRect } ∧
    lookup (updateBounds regAB 1 badRect) 2 = lookup regAB 2 := by
  have hs : lookup regAB 1 = some wSessA := by
    simp [lookup, regAB, List.find?, wSessA]
  exact ⟨(heartbeat_updates_bounds_verbatim regAB 1 2 badRect wSessA hs).2.1,
    (heartbeat_updates_bounds_verbatim regAB 1 2 badRect wSessA hs).2.2.1
      (by decide)⟩

/-- C6: starting from the empty coordinator, after any sequence of
connect/disconnect/heartbeat events the live sessions carry pairwise
distinct ids; a further `register` hands out an id never assigned to any
earlier session (the monotonic counter) and creates the new session with
the placeholder rectangle `{x:0, y:0, width:800, height:600}` appended to
the registry. -/
theorem register_assigns_fresh_id (ops : List RegOp) (ch : ℕ) :
    ((runOps registryInit ops).connections.map Session.id).Nodup ∧
    (register (runOps registryInit ops) ch).2 ∉ assignedIds registryInit ops ∧
    (register (runOps registryInit ops) ch).1.connections =
      (runOps registryInit ops).connections ++
        [{ id := (register (runOps registryInit ops) ch).2
           channel := ch
           bounds := { x := 0, y := 0, width := 800, height := 600 } }] := by
  have hinit_b : IdsBounded registryInit := by
    intro c hc
    simp [registryInit] at hc
  have hinit_n : NodupIds registryInit := by
    simp [NodupIds, registryInit]
  have hinv := invariants_runOps ops registryInit hinit_b hinit_n
  refine ⟨hinv.2, ?_, rfl⟩
  intro hmem
  have hlt := assignedIds_lt ops registryInit _ hmem
  have : (register (runOps registryInit ops) ch).2 =
      (runOps registryInit ops).nextId := rfl
  rw [this] at hlt
  exact lt_irrefl _ hlt

/-- C6 witness: after two connects and one disconnect, a new register
hands out id 3, which was never assigned before. -/
theorem register_assigns_fresh_id_witness :
    (register (runOps registryInit [RegOp.register 0, RegOp.register 1,
      RegOp.unregister 1]) 7).2 ∉
      assignedIds registryInit [RegOp.register 0, RegOp.register 1,
        RegOp.unregister 1] :=
  (register_assigns_fresh_id [RegOp.register 0, RegOp.register 1,
    RegOp.unregister 1] 7).2.1

/-- C2 (failing-input evaluation): for two live clients with exactly
coincident rectangle centers the code computes `dist = 0` and
`dx/dist = 0/0 = NaN`, so the per-pair force components and the
accumulated force pushed to both clients are `NaN` — not the claimed
floor value 50 and not non-NaN. -/
theorem gravity_nan_at_coincident_centers :
    cdist coincA coincB = 0 ∧
    (pairCompute coincA coincB).fx = JSVal.nan ∧
    (pairCompute coincA coincB).fy = JSVal.nan ∧
    (tick [coincA, coincB]).map UpdateState.gravityX =
      [JSVal.nan, JSVal.nan] ∧
    (tick [coincA, coincB]).map UpdateState.gravityY =
      [JSVal.nan, JSVal.nan] := by
  have hdx : centerX coincB - centerX coincA = 0 := by
    norm_num [centerX, coincA, coincB]
  have hdy : centerY coincB - centerY coincA = 0 := by
    norm_num [centerY, coincA, coincB]
  have hdx' : centerX coincA - centerX coincB = 0 := by
    norm_num [centerX, coincA, coincB]
  have hdy' : centerY coincA - centerY coincB = 0 := by
    norm_num [centerY, coincA, coincB]
  have hfxAB : (pairCompute coincA coincB).fx = JSVal.nan := by
    simp [pairCompute, hdx, hdy, jdiv, jmul]
  have hfyAB : (pairCompute coincA coincB).fy = JSVal.nan := by
    simp [pairCompute, hdx, hdy, jdiv, jmul]
  have hfxBA : (pairCompute coincB coincA).fx = JSVal.nan := by
    simp [pairCompute, hdx', hdy', jdiv, jmul]
  have hfyBA : (pairCompute coincB coincA).fy = JSVal.nan := by
    simp [pairCompute, hdx', hdy', jdiv, jmul]
  have hcd : cdist coincA coincB = 0 := by
    rw [cdist, cdx, cdy, hdx, hdy]
    simp
  have ha : coincA.id = 1 := rfl
  have hb : coincB.id = 2 := rfl
  refine ⟨hcd, hfxAB, hfyAB, ?_, ?_⟩ <;>
    simp [tick, tickStep, ha, hb, hfxAB, hfyAB, hfxBA, hfyBA, jadd]

/-- C3: for two clients whose centers are at distance `D ≥ 100`, the
per-pair force A receives from B is the finite vector
`(dx/D, dy/D) * (500000 / D^2)`: it points along the unit vector from A's
center toward B's center and its Euclidean magnitude is exactly
`500000 / D^2`; the force B receives from A is its exact negation (equal
magnitude, opposite direction). -/
theorem gravity_pair_force_inverse_square (A B : Session)
    (hD : 100 ≤ cdist A B) :
    (pairCompute A B).fx =
      JSVal.num ((cdx A B / cdist A B) * (500000 / cdist A B ^ 2)) ∧
    (pairCompute A B).fy =
      JSVal.num ((cdy A B / cdist A B) * (500000 / cdist A B ^ 2)) ∧
    Real.sqrt (((cdx A B / cdist A B) * (500000 / cdist A B ^ 2)) ^ 2 +
        ((cdy A B / cdist A B) * (500000 / cdist A B ^ 2)) ^ 2) =
      500000 / cdist A B ^ 2 ∧
    (pairCompute B A).fx =
      JSVal.num (-((cdx A B / cdist A B) * (500000 / cdist A B ^ 2))) ∧
    (pairCompute B A).fy =
      JSVal.num (-((cdy A B / cdist A B) * (500000 / cdist A B ^ 2))) := by
  have hD0 : (0:ℝ) < cdist A B := lt_of_lt_of_le (by norm_num) hD
  have hDne : cdist A B ≠ 0 := ne_of_gt hD0
  have hnn : (0:ℝ) ≤ cdx A B * cdx A B + cdy A B * cdy A B :=
    add_nonneg (mul_self_nonneg _) (mul_self_nonneg _)
  have hsq : cdx A B * cdx A B + cdy A B * cdy A B = cdist A B ^ 2 := by
    rw [cdist, Real.sq_sqrt hnn]
  have hfloor : max (cdx A B * cdx A B + cdy A B * cdy A B) 10000 =
      cdx A B * cdx A B + cdy A B * cdy A B := by
    apply max_eq_left
    rw [hsq]
    calc (10000:ℝ) = 100 ^ 2 := by norm_num
    _ ≤ cdist A B ^ 2 := by
        apply pow_le_pow_left₀ (by norm_num) hD
  have hM0 : (0:ℝ) ≤ 500000 / cdist A B ^ 2 := by positivity
  have hfx : (pairCompute A B).fx =
      JSVal.num ((cdx A B / cdist A B) * (500000 / cdist A B ^ 2)) := by
    show jmul (jdiv (cdx A B) (cdist A B))
      (500000 / max (cdx A B * cdx A B + cdy A B * cdy A B) 10000) = _
    rw [hfloor, hsq, jdiv, if_neg hDne, jmul]
  have hfy : (pairCompute A B).fy =
      JSVal.num ((cdy A B / cdist A B) * (500000 / cdist A B ^ 2)) := by
    show jmul (jdiv (cdy A B) (cdist A B))
      (500000 / max (cdx A B * cdx A B + cdy A B * cdy A B) 10000) = _
    rw [hfloor, hsq, jdiv, if_neg hDne, jmul]
  have hmag : Real.sqrt (((cdx A B / cdist A B) * (500000 / cdist A B ^ 2)) ^ 2 +
      ((cdy A B / cdist A B) * (500000 / cdist A B ^ 2)) ^ 2) =
      500000 / cdist A B ^ 2 := by
    have hexp : ((cdx A B / cdist A B) * (500000 / cdist A B ^ 2)) ^ 2 +
        ((cdy A B / cdist A B) * (500000 / cdist A B ^ 2)) ^ 2 =
        (500000 / cdist A B ^ 2) ^ 2 := by
      have expand : ((cdx A B / cdist A B) * (500000 / cdist A B ^ 2)) ^ 2 +
          ((cdy A B / cdist A B) * (500000 / cdist A B ^ 2)) ^ 2 =
          (500000 / cdist A B ^ 2) ^ 2 *
            ((cdx A B * cdx A B + cdy A B * cdy A B) / cdist A B ^ 2) := by
        field_simp
        ring
      rw [expand, hsq]
      field_simp
    rw [hexp, Real.sqrt_sq hM0]
  have hdxBA : cdx B A = -(cdx A B) := by
    simp [cdx]
  have hdyBA : cdy B A = -(cdy A B) := by
    simp [cdy]
  have hdistBA : cdist B A = cdist A B := by
    rw [cdist, cdist, hdxBA, hdyBA]
    ring_nf
  have hfxBA : (pairCompute B A).fx =
      JSVal.num (-((cdx A B / cdist A B) * (500000 / cdist A B ^ 2))) := by
    show jmul (jdiv (cdx B A) (cdist B A))
      (500000 / max (cdx B A * cdx B A + cdy B A * cdy B A) 10000) = _
    rw [hdxBA, hdyBA, hdistBA]
    have hfloor' : max (-(cdx A B) * -(cdx A B) + -(cdy A B) * -(cdy A B))
        10000 = cdist A B ^ 2 := by
      rw [show -(cdx A B) * -(cdx A B) + -(cdy A B) * -(cdy A B) =
        cdx A B * cdx A B + cdy A B * cdy A B by ring, hfloor, hsq]
    rw [hfloor', jdiv, if_neg hDne, jmul]
    congr 1
    ring
  have hfyBA : (pairCompute B A).fy =
      JSVal.num (-((cdy A B / cdist A B) * (500000 / cdist A B ^ 2))) := by
    show jmul (jdiv (cdy B A) (cdist B A))
      (500000 / max (cdx B A * cdx B A + cdy B A * cdy B A) 10000) = _
    rw [hdxBA, hdyBA, hdistBA]
    have hfloor' : max (-(cdx A B) * -(cdx A B) + -(cdy A B) * -(cdy A B))
        10000 = cdist A B ^ 2 := by
      rw [show -(cdx A B) * -(cdx A B) + -(cdy A B) * -(cdy A B) =
        cdx A B * cdx A B + cdy A B * cdy A B by ring, hfloor, hsq]
    rw [hfloor', jdiv, if_neg hDne, jmul]
    congr 1
    ring
  exact ⟨hfx, hfy, hmag, hfxBA, hfyBA⟩

/-- C3 witness: the spec's tick scenario, A centered at `(400,300)` and B
at `(1600,300)`, distance 1200: the force on A is the finite vector
`(1200/1200) * (500000/1200^2)` along the x axis. -/
theorem gravity_pair_force_inverse_square_witness :
    100 ≤ cdist gA gB ∧
    (pairCompute gA gB).fx =
      JSVal.num ((cdx gA gB / cdist gA gB) * (500000 / cdist gA gB ^ 2)) := by
  have hdx : cdx gA gB = 1200 := by
    norm_num [cdx, centerX, gA, gB]
  have hdy : cdy gA gB = 0 := by
    norm_num [cdy, centerY, gA, gB]
  have hd : cdist gA gB = 1200 := by
    rw [cdist, hdx, hdy]
    rw [show (1200:ℝ) * 1200 + 0 * 0 = 1200 ^ 2 by norm_num]
    exact Real.sqrt_sq (by norm_num)
  have h100 : (100:ℝ) ≤ cdist gA gB := by
    rw [hd]
    norm_num
  exact ⟨h100, (gravity_pair_force_inverse_square gA gB h100).1⟩

/-- C10: with exactly one registered client, every tick pushes to that
client a zero force vector and an empty neighbors list: the self-pair is
skipped, so a client never contributes force to itself nor appears in its
own neighbor list. -/
theorem tick_single_client_zero_force (s : Session) :
    tick [s] = [{ destId := s.id
                  gravityX := JSVal.num 0
                  gravityY := JSVal.num 0
                  neighbors := [] }] := by
  simp [tick, tickStep]
